import Mathlib

/-!
# Verification of the butler-level3 automation gateway

Shallow embedding of the commit-construction and branch-reconciliation
logic of `src/index.ts` (the draft whose line numbers the specification
refers to: `commitBatch`, `ensureBranchAndGetHeadSha`,
`validatePathsOrDie`, the `/apply` handler) together with
`src/lib/allowlist.ts`.

Remote (GitHub API) behaviour is modelled by explicit "world" records
giving the outcome of each remote call; handlers are pure functions from
(request, world) to (response, ordered trace of remote calls issued).
Strings are modelled as Lean `String` (sequences of Unicode characters;
the JavaScript originals operate on UTF-16 code units, which coincides
on the ASCII inputs used throughout).
-/

namespace Butler

/-! ## JavaScript `String.prototype.replace(searchString, replacement)`

`commitBatch` performs `current.replace(e.search, e.replace)` with two
string arguments: the FIRST occurrence of the search string is located,
and the replacement string undergoes ECMAScript `GetSubstitution`
(`$$` → `$`, `$&` → matched text, `$` + backtick → text before the
match, `$` + apostrophe → text after the match; with a string search
there are no capture groups, so `$n` and `$<` pass through verbatim). -/

/-- Index of the first occurrence of `pat` in `s`, if any
(JS `String.prototype.indexOf`; the empty pattern matches at 0). -/
def findSub (s pat : List Char) : Option Nat :=
  if pat.isPrefixOf s then some 0
  else
    match s with
    | [] => none
    | _ :: rest => (findSub rest pat).map (· + 1)

/-- ECMAScript `GetSubstitution` over the replacement's characters, with
no capture groups: `matched` is the matched text, `bef`/`aft` the text
before/after the match in the subject string. -/
def substAux (matched bef aft : List Char) : List Char → List Char
  | [] => []
  | c :: rest =>
    if c = '$' then
      match rest with
      | [] => ['$']
      | d :: rest2 =>
        if d = '$' then '$' :: substAux matched bef aft rest2
        else if d = '&' then matched ++ substAux matched bef aft rest2
        else if d = Char.ofNat 96 then bef ++ substAux matched bef aft rest2
        else if d = Char.ofNat 39 then aft ++ substAux matched bef aft rest2
        else '$' :: d :: substAux matched bef aft rest2
    else c :: substAux matched bef aft rest

/-- JS `s.replace(search, repl)` with string arguments: replace the first
occurrence of `search` by the `GetSubstitution` expansion of `repl`;
return `s` unchanged when `search` does not occur. -/
def jsReplaceFirst (s search repl : String) : String :=
  match findSub s.data search.data with
  | none => s
  | some i =>
    let bef := s.data.take i
    let aft := s.data.drop (i + search.data.length)
    String.mk (bef ++ substAux search.data bef aft repl.data ++ aft)

/-- `search` occurs as a substring of `s` (decidable occurrence test). -/
def occursIn (s pat : String) : Bool :=
  (findSub s.data pat.data).isSome

example : jsReplaceFirst "foo foo" "foo" "bar" = "bar foo" := by decide
example : jsReplaceFirst "abc" "zz" "q" = "abc" := by decide
example : jsReplaceFirst "a" "a" "$&$&" = "aa" := by decide

/-! ## `src/lib/allowlist.ts` -/

/-- `norm`: replace every backslash by a forward slash. -/
def normSlashes (s : List Char) : List Char :=
  s.map (fun c => if c = '\\' then '/' else c)

/-- `norm`: strip one leading `.` followed by one or more `/`
(the anchored regex `/^\.\/+/`). -/
def stripDotSlash : List Char → List Char
  | '.' :: rest =>
    if rest.takeWhile (· = '/') = [] then '.' :: rest
    else rest.dropWhile (· = '/')
  | s => s

/-- `norm(p)` from `src/lib/allowlist.ts`. -/
def norm (p : String) : String :=
  String.mk (stripDotSlash (normSlashes p.data))

/-- Tokens of the compiled glob pattern: a literal character, `*`
(compiled to `[^/]*`), or `**` (compiled to `.*`). -/
inductive GTok
  | lit (c : Char)
  | star
  | dstar
deriving DecidableEq

/-- Tokenisation done by `globToRegExp`: `**` pairs are recognised
before single `*`; every other character is matched literally (the
regex-metacharacter escaping makes it literal). The fixed
`SAFE_WRITE_GLOBS` contain no `?` and no `::DS::`, where the compiled
regex would diverge from this reading. -/
def tokenize : List Char → List GTok
  | '*' :: '*' :: rest => .dstar :: tokenize rest
  | '*' :: rest => .star :: tokenize rest
  | c :: rest => .lit c :: tokenize rest
  | [] => []

/-- JS regex `.` (no `s` flag) matches any character except a line
terminator (LF, CR, U+2028, U+2029); `[^/]` matches anything but `/`. -/
def isLineTerm (c : Char) : Bool :=
  c = '\n' || c = '\r' || c = Char.ofNat 8232 || c = Char.ofNat 8233

/-- A star quantifier: try the continuation `k` at every split point,
consuming only characters satisfying `ok`. -/
def starLoop (k : List Char → Bool) (ok : Char → Bool) : List Char → Bool
  | [] => k []
  | d :: ds => k (d :: ds) || (ok d && starLoop k ok ds)

/-- Matching of the compiled anchored regex (`^...$`) against a path:
`[^/]*` consumes any run of non-`/` characters, `.*` consumes any run
of non-line-terminator characters. -/
def gmatch : List GTok → List Char → Bool
  | [], s => s.isEmpty
  | .lit c :: ts, s =>
    match s with
    | [] => false
    | d :: ds => c = d && gmatch ts ds
  | .star :: ts, s => starLoop (gmatch ts) (fun d => d != '/') s
  | .dstar :: ts, s => starLoop (gmatch ts) (fun d => !isLineTerm d) s

/-- `SAFE_WRITE_GLOBS` from `src/lib/allowlist.ts`. -/
def SAFE_WRITE_GLOBS : List String :=
  ["src/**", "supabase/**", "docs/**", "README.md", "README*.md", "*.md",
   "config/**", "package.json", "tsconfig.json", ".github/workflows/**"]

/-- `globToRegExp(g).test(n)`: the glob is itself normalised before
compilation. -/
def globTest (g n : String) : Bool :=
  gmatch (tokenize (norm g).data) (norm n).data

/-- `isPathAllowed(p)` from `src/lib/allowlist.ts`. -/
def isPathAllowed (p : String) : Bool :=
  SAFE_WRITE_GLOBS.any (fun g => globTest g p)

/-- `isWorkflowPath(p)` from `src/lib/allowlist.ts`:
`norm(p).startsWith(".github/workflows/")`. -/
def isWorkflowPath (p : String) : Bool :=
  ".github/workflows/".data.isPrefixOf (norm p).data

example : isPathAllowed "src/hello.txt" = true := by decide
example : isPathAllowed ".github/workflows/ci.yml" = true := by decide
example : isPathAllowed "secrets.txt" = false := by decide
example : isWorkflowPath ".github/workflows/ci.yml" = true := by decide
example : isWorkflowPath "README.md" = false := by decide
example : isPathAllowed "./README.md" = true := by decide

/-! ## Edit operations

Request bodies are duck-typed JSON; the fields below are the ones the
handler reads. `commitBatch`'s own type for write edits has only
`path`, `mode`, `content` — requests may carry an `encoding` or `all`
field, which this draft never consults; they are kept in the model so
that claims about them can be stated. (`validatePathsOrDie` reads
`e.path || e.from`; no edit shape processed by `commitBatch` has a
`from` field, so the model carries `path` only.) -/

structure WriteEdit where
  path : String
  mode : String       -- "create" | "overwrite"
  content : String
  encoding : String   -- "utf8" | "base64"; present in requests, never read here
deriving DecidableEq

structure ReplaceEdit where
  path : String
  search : String
  replace : String
  all : Bool          -- present in requests, never read by this draft
deriving DecidableEq

inductive Edit
  | write (w : WriteEdit)
  | replace (r : ReplaceEdit)
deriving DecidableEq

def Edit.path : Edit → String
  | .write w => w.path
  | .replace r => r.path

/-! ## Remote-world model

Each remote (GitHub API) call's outcome is a field of a "world" record;
handlers are pure functions of (request, world) that also emit the
ordered trace of remote calls they issue. -/

/-- Outcome of `repos.getContent` for a path at the branch tip, as the
code consumes it: the call throws (missing file or any other error —
the code's `catch` skips either way), returns data without a `content`
field (e.g. a directory), or returns a file whose base64 payload
decodes to the given text. -/
inductive ContentResult
  | missing
  | notFile
  | file (text : String)
deriving DecidableEq

/-- Outcome of a `git.getRef` call: the HEAD SHA, or a thrown error
carrying an HTTP status (404 = not found; others = other failures). -/
inductive RefResult
  | ok (sha : String)
  | err (status : Nat)
deriving DecidableEq

/-- Remote calls, in the order the handler issues them.  Calls that
create or mutate remote state: `createRef`, `createTree`,
`createCommit`, `updateRef`, `prCreate`, `prUpdate`, `addLabels`,
`requestReviewers`. -/
inductive Call
  | getRef (name : String)
  | createRef (name : String)
  | getCommit (sha : String)
  | getContent (path : String)
  | createTree
  | createCommit
  | updateRef (name : String)
  | prList
  | prUpdate (n : Nat)
  | prCreate
  | addLabels (n : Nat)
  | requestReviewers (n : Nat)
deriving DecidableEq

/-- Calls that mutate remote state (everything but the reads). -/
def Call.isMutation : Call → Bool
  | .getRef _ | .getCommit _ | .getContent _ | .prList => false
  | _ => true

/-- The three creation calls `commitBatch` must not reach on the
`no_change` path. -/
def Call.isCommitCreation : Call → Bool
  | .createTree | .createCommit | .updateRef _ => true
  | _ => false

/-! ## `commitBatch` (src/index.ts lines 102–184) -/

/-- Tree entry produced for an edit (path plus final blob content; the
git file mode is the constant `100644` in the source). -/
structure TreeEntry where
  path : String
  content : String
deriving DecidableEq

/-- One iteration of `commitBatch`'s edit loop: the tree entry the edit
contributes, if any.  A write always contributes its content verbatim
("create/overwrite is the same at tree level").  A replace fetches the
file at the branch tip (`fetch`), skips when the call throws or the
result is not a file, performs `current.replace(search, replace)`
(first occurrence, JS substitution semantics), and skips when the
result is identical. -/
def entryOfEdit (fetch : String → ContentResult) : Edit → Option TreeEntry
  | .write w => some ⟨w.path, w.content⟩
  | .replace r =>
    match fetch r.path with
    | .file current =>
      let next := jsReplaceFirst current r.search r.replace
      if next = current then none else some ⟨r.path, next⟩
    | _ => none

/-- The `treeEntries` array after the loop over `edits`. -/
def treeEntriesOf (fetch : String → ContentResult) (edits : List Edit) : List TreeEntry :=
  edits.filterMap (entryOfEdit fetch)

/-- `getContent` calls issued by the loop (one per replace edit). -/
def fetchCalls (edits : List Edit) : List Call :=
  edits.filterMap fun e =>
    match e with
    | .replace r => some (Call.getContent r.path)
    | .write _ => none

/-- Remote outcomes consumed by one `commitBatch` run. -/
structure CommitWorld where
  getCommitTree : Option String   -- tree SHA of the parent commit; none = call throws
  fetch : String → ContentResult  -- getContent per path at the branch tip
  createTreeFails : Bool
  createCommitFails : Bool
  updateRefFails : Bool
  newCommitSha : String           -- SHA returned by createCommit on success

/-- Errors `commitBatch` can throw: the tagged `no_change` error, or
any other remote failure (re-thrown to the caller). -/
inductive CommitErr
  | noChange
  | remote
deriving DecidableEq

/-- `commitBatch`: fetch the parent commit's tree, evaluate every edit
into tree entries, throw `no_change` when none resulted, otherwise
create tree, commit and force-move the branch ref.  Returns the new
commit SHA or the thrown error, together with the trace of remote
calls issued. -/
def commitBatch (w : CommitWorld) (branch parentSha : String) (edits : List Edit) :
    Except CommitErr String × List Call :=
  match w.getCommitTree with
  | none => (.error .remote, [.getCommit parentSha])
  | some _baseTree =>
    let pre : List Call := Call.getCommit parentSha :: fetchCalls edits
    if (treeEntriesOf w.fetch edits).isEmpty then
      (.error .noChange, pre)
    else if w.createTreeFails then
      (.error .remote, pre ++ [.createTree])
    else if w.createCommitFails then
      (.error .remote, pre ++ [.createTree, .createCommit])
    else if w.updateRefFails then
      (.error .remote, pre ++ [.createTree, .createCommit, .updateRef branch])
    else
      (.ok w.newCommitSha, pre ++ [.createTree, .createCommit, .updateRef branch])

/-! ## `ensureBranchAndGetHeadSha` (src/index.ts lines 78–99) -/

/-- Remote outcomes consumed by branch resolution. -/
structure BranchWorld where
  branchRef : RefResult      -- getRef heads/<branch>
  baseRef : RefResult        -- getRef heads/<baseBranch>
  createRef : Option Nat     -- none = created; some status = call throws

/-- `ensureBranchAndGetHeadSha`: try to read the branch ref; the
`catch` clause is unconditional, so ANY thrown error (whatever its
status) falls through to creating the branch from the base branch's
HEAD.  Failures of the base-ref read or of ref creation are not caught
and propagate. -/
def ensureBranchAndGetHeadSha (w : BranchWorld) (branch baseBranch : String) :
    Except Unit String × List Call :=
  match w.branchRef with
  | .ok sha => (.ok sha, [.getRef branch])
  | .err _ =>
    match w.baseRef with
    | .err _ => (.error (), [.getRef branch, .getRef baseBranch])
    | .ok baseSha =>
      match w.createRef with
      | some _ => (.error (), [.getRef branch, .getRef baseBranch, .createRef branch])
      | none => (.ok baseSha, [.getRef branch, .getRef baseBranch, .createRef branch])

/-! ## `validatePathsOrDie` (src/index.ts lines 55–75) -/

/-- Result of the path/approval gate. -/
inductive GateResult
  | invalid
  | pathNotAllowed (p : String)
  | workflowBlocked (p : String)
  | ok
deriving DecidableEq

/-- The `X-Butler-Approve-Workflows` header check as the code performs
it per workflow edit: `!hdr || hdr !== ENV.WORKFLOW_EDIT_KEY` rejects a
missing header, an empty (falsy) header, and a mismatch. -/
def approveOk (hdr : Option String) (key : String) : Bool :=
  match hdr with
  | none => false
  | some h => h != "" && h == key

/-- `validatePathsOrDie`: walk the edits in order; an edit with a falsy
path yields 400 `invalid`, a disallowed path yields 400
`path_not_allowed`, an allowed workflow path without the approval
header yields 403 `workflow_edit_blocked`; otherwise continue. -/
def validatePathsOrDie (approved : Bool) : List Edit → GateResult
  | [] => .ok
  | e :: rest =>
    if e.path = "" then .invalid
    else if !isPathAllowed e.path then .pathNotAllowed e.path
    else if isWorkflowPath e.path && !approved then .workflowBlocked e.path
    else validatePathsOrDie approved rest

/-! ## PR reconciliation block (src/index.ts lines 244–274) -/

/-- Remote outcomes consumed by the PR block. -/
structure PRWorld where
  listFails : Bool                       -- pulls.list throws
  existing : Option (Nat × String)       -- open PR (number, html_url) when list succeeds
  updateFails : Bool                     -- pulls.update throws
  createFirst : Option (Nat × String)    -- pulls.create inside the try; none = throws
  labelsFail : Bool                      -- issues.addLabels throws
  reviewersFail : Bool                   -- pulls.requestReviewers throws
  createFallback : Option (Nat × String) -- pulls.create inside the catch; none = throws

/-- Body of the `try` block: `some url` when it completes, `none` when
any call inside it throws (which lands in the `catch`), with the trace
of PR calls issued inside the block. -/
def prTryBlock (w : PRWorld) (labels reviewers : List String) :
    Option String × List Call :=
  if w.listFails then (none, [.prList])
  else
    match w.existing with
    | some (n, u) =>
      if w.updateFails then (none, [.prList, .prUpdate n])
      else (some u, [.prList, .prUpdate n])
    | none =>
      match w.createFirst with
      | none => (none, [.prList, .prCreate])
      | some (n, u) =>
        if !labels.isEmpty then
          if w.labelsFail then (none, [.prList, .prCreate, .addLabels n])
          else if !reviewers.isEmpty then
            if w.reviewersFail then
              (none, [.prList, .prCreate, .addLabels n, .requestReviewers n])
            else (some u, [.prList, .prCreate, .addLabels n, .requestReviewers n])
          else (some u, [.prList, .prCreate, .addLabels n])
        else if !reviewers.isEmpty then
          if w.reviewersFail then (none, [.prList, .prCreate, .requestReviewers n])
          else (some u, [.prList, .prCreate, .requestReviewers n])
        else (some u, [.prList, .prCreate])

/-- The whole PR step: on any failure inside the `try`, the `catch`
issues one more `pulls.create`; its failure propagates to the outer
handler (→ 500 `apply_failed`). -/
def prStep (w : PRWorld) (labels reviewers : List String) :
    Except Unit String × List Call :=
  match prTryBlock w labels reviewers with
  | (some u, calls) => (.ok u, calls)
  | (none, calls) =>
    match w.createFallback with
    | some (_, u) => (.ok u, calls ++ [.prCreate])
    | none => (.error (), calls ++ [.prCreate])

/-! ## The `/apply` handler (src/index.ts lines 187–285) -/

/-- JSON responses of `/apply`, by their `error` discriminant (the `ok`
constructor is the 200 success body). -/
inductive Resp
  | unauthorized                    -- 401 {error:"unauthorized"}
  | ownerRepoRequired               -- 400 {error:"owner_repo_required"}
  | invalid                         -- 400 {error:"invalid", ...}
  | pathNotAllowed (p : String)     -- 400 {error:"path_not_allowed", path}
  | workflowBlocked (p : String)    -- 403 {error:"workflow_edit_blocked", path}
  | branchExists (branch : String)  -- 422 {error:"branch_exists", ...}
  | noChange                        -- 400 {error:"no_change"}
  | applyFailed                     -- 500 {error:"apply_failed", message}
  | ok (branch prUrl commitSha : String) -- 200 {ok:true, branch, prUrl, commit}
deriving DecidableEq

/-- HTTP status code of each response. -/
def Resp.statusCode : Resp → Nat
  | .unauthorized => 401
  | .ownerRepoRequired => 400
  | .invalid => 400
  | .pathNotAllowed _ => 400
  | .workflowBlocked _ => 403
  | .branchExists _ => 422
  | .noChange => 400
  | .applyFailed => 500
  | .ok _ _ _ => 200

/-- An `/apply` request after JSON parsing, with `owner`/`repo` already
defaulted from the environment (`baseBranch` defaults to "main"
upstream of this record).  `Option` fields model absent/non-string
JSON values. -/
structure Request where
  token : Option String          -- X-Butler-Token header
  approveHdr : Option String     -- X-Butler-Approve-Workflows header
  owner : String
  repo : String
  branch : Option String
  baseBranch : String
  prTitle : Option String
  edits : List Edit
  strategyReuse : Bool           -- branchStrategy === "reuse"
  labels : List String
  reviewers : List String

/-- All remote outcomes one `/apply` run can consume. -/
structure World where
  branchRef : RefResult       -- getRef heads/<branch> (reuse strategy)
  baseRef : RefResult         -- getRef heads/<baseBranch>
  createRef : Option Nat      -- none = created; some status = call throws
  commit : CommitWorld
  pr : PRWorld

/-- Server-held secrets the handler compares headers against. -/
structure Env where
  butlerToken : String
  workflowEditKey : String

/-- `requireToken`: `!token || token !== ENV.BUTLER_TOKEN` → 401. -/
def requireToken (tok : Option String) (secret : String) : Bool :=
  match tok with
  | none => false
  | some t => t != "" && t == secret

/-- Head resolution inside `/apply`: the reuse strategy delegates to
`ensureBranchAndGetHeadSha` (whose failures propagate to the outer
catch → 500); the create-new strategy reads the base ref (failure
propagates) and attempts `createRef`, answering 422 `branch_exists` on
ANY failure of that call. -/
def resolveHead (r : Request) (w : World) (branch : String) :
    Except Resp String × List Call :=
  if r.strategyReuse then
    match ensureBranchAndGetHeadSha ⟨w.branchRef, w.baseRef, w.createRef⟩ branch r.baseBranch with
    | (.ok sha, cs) => (.ok sha, cs)
    | (.error _, cs) => (.error .applyFailed, cs)
  else
    match w.baseRef with
    | .err _ => (.error .applyFailed, [.getRef r.baseBranch])
    | .ok baseSha =>
      match w.createRef with
      | some _ => (.error (.branchExists branch), [.getRef r.baseBranch, .createRef branch])
      | none => (.ok baseSha, [.getRef r.baseBranch, .createRef branch])

/-- The `/apply` handler: token gate, body shape checks, path/approval
gate, head resolution, `commitBatch`, PR reconciliation; the outer
catch maps the tagged `no_change` error to 400 and everything else to
500 `apply_failed`.  Returns the response and the ordered trace of
remote calls issued. -/
def applyHandler (env : Env) (r : Request) (w : World) : Resp × List Call :=
  if !requireToken r.token env.butlerToken then (.unauthorized, [])
  else if r.owner = "" || r.repo = "" then (.ownerRepoRequired, [])
  else
    match r.branch with
    | none => (.invalid, [])
    | some branch =>
      if branch = "" then (.invalid, [])
      else
        match r.prTitle with
        | none => (.invalid, [])
        | some title =>
          if title = "" then (.invalid, [])
          else if r.edits.isEmpty then (.invalid, [])
          else
            match validatePathsOrDie (approveOk r.approveHdr env.workflowEditKey) r.edits with
            | .invalid => (.invalid, [])
            | .pathNotAllowed p => (.pathNotAllowed p, [])
            | .workflowBlocked p => (.workflowBlocked p, [])
            | .ok =>
              match resolveHead r w branch with
              | (.error resp, cs) => (resp, cs)
              | (.ok headSha, cs) =>
                match commitBatch w.commit branch headSha r.edits with
                | (.error .noChange, cs2) => (.noChange, cs ++ cs2)
                | (.error .remote, cs2) => (.applyFailed, cs ++ cs2)
                | (.ok newSha, cs2) =>
                  match prStep w.pr r.labels r.reviewers with
                  | (.error _, cs3) => (.applyFailed, cs ++ cs2 ++ cs3)
                  | (.ok url, cs3) => (.ok branch url newSha, cs ++ cs2 ++ cs3)

/-! ## Base64 decoding (what the spec's `Write` contract mandates)

The specification requires `Write` content declared `base64` to be
decoded before the tree entry is produced (as `Buffer.from(content,
"base64").toString("utf8")` would); this draft's `commitBatch` does
not.  The decoder below follows the spec's words, for comparison. -/

/-- Value of one base64 alphabet character (`=` and anything else is
padding/ignored, as Node's lenient decoder does). -/
def b64Val (c : Char) : Option Nat :=
  if 'A' ≤ c ∧ c ≤ 'Z' then some (c.toNat - 65)
  else if 'a' ≤ c ∧ c ≤ 'z' then some (c.toNat - 97 + 26)
  else if '0' ≤ c ∧ c ≤ '9' then some (c.toNat - 48 + 52)
  else if c = '+' then some 62
  else if c = '/' then some 63
  else none

/-- Reassemble 6-bit groups into bytes. -/
def b64Bytes : List Nat → List Nat
  | a :: b :: c :: d :: rest =>
    (a * 4 + b / 16) :: (b % 16 * 16 + c / 4) :: (c % 4 * 64 + d) :: b64Bytes rest
  | [a, b] => [a * 4 + b / 16]
  | [a, b, c] => [a * 4 + b / 16, b % 16 * 16 + c / 4]
  | _ => []

/-- Base64 decoding to text (ASCII payloads). -/
def base64Decode (s : String) : String :=
  String.mk ((b64Bytes (s.data.filterMap b64Val)).map Char.ofNat)

example : base64Decode "aGk=" = "hi" := by decide
example : base64Decode "aGVsbG8=" = "hello" := by decide

/-! ## Concrete fixtures used by the theorems below -/

/-- Server secrets used in the concrete runs. -/
def baseEnv : Env := ⟨"tok", "wfkey"⟩

/-- A PR world where listing succeeds, finds nothing, and creation
succeeds with PR number 1 at `prurl`. -/
def okPR : PRWorld :=
  { listFails := false, existing := none, updateFails := false,
    createFirst := some (1, "prurl"), labelsFail := false,
    reviewersFail := false, createFallback := none }

/-- A commit world with the given content lookup and all creation calls
succeeding. -/
def okCommit (fetch : String → ContentResult) : CommitWorld :=
  { getCommitTree := some "tree0", fetch := fetch,
    createTreeFails := false, createCommitFails := false,
    updateRefFails := false, newCommitSha := "newsha" }

/-- A world whose branch lookup 404s, base branch at `base0`, ref
creation succeeding, with the given content lookup. -/
def okWorld (fetch : String → ContentResult) : World :=
  { branchRef := .err 404, baseRef := .ok "base0", createRef := none,
    commit := okCommit fetch, pr := okPR }

/-- A well-formed request skeleton: valid token, no workflow-approval
header, `create-new` branch strategy, no labels or reviewers. -/
def mkReq (edits : List Edit) : Request :=
  { token := some "tok", approveHdr := none, owner := "o", repo := "r",
    branch := some "feat", baseBranch := "main", prTitle := some "T",
    edits := edits, strategyReuse := false, labels := [], reviewers := [] }

/-- C1: a `create`-mode write aimed at a path that already exists. -/
def c1Edit : Edit := .write ⟨"README.md", "create", "new text", "utf8"⟩

/-- C1: content lookup reporting that `README.md` already exists. -/
def c1Fetch : String → ContentResult :=
  fun p => if p = "README.md" then .file "old text" else .missing

/-- C2: the spec's Scenario D replace edit with `all = true`. -/
def c2Edit : ReplaceEdit := ⟨"README.md", "foo", "bar", true⟩

/-- C2: `README.md` containing `"foo foo"`. -/
def c2Fetch : String → ContentResult :=
  fun p => if p = "README.md" then .file "foo foo" else .missing

/-- C3: the branch-ref lookup throws a non-404 error (HTTP 500). -/
def c3World : BranchWorld := ⟨.err 500, .ok "base0", none⟩

/-- C4: a batch whose first edit has a disallowed path and whose second
edit is a workflow path. -/
def c4Edits : List Edit :=
  [.write ⟨"secrets.txt", "overwrite", "x", "utf8"⟩,
   .write ⟨".github/workflows/ci.yml", "overwrite", "y", "utf8"⟩]

/-- C5: create-new strategy where `createRef` throws with HTTP 403
(e.g. permissions), not the already-exists failure (HTTP 422). -/
def c5World : World :=
  { branchRef := .err 404, baseRef := .ok "base0", createRef := some 403,
    commit := okCommit (fun _ => .missing), pr := okPR }

/-- C7: replace edit whose replacement re-contains its search string. -/
def c7Edit : ReplaceEdit := ⟨"f.txt", "a", "ab", false⟩

/-- C7: file content before the first application. -/
def c7Fetch1 : String → ContentResult :=
  fun p => if p = "f.txt" then .file "a" else .missing

/-- C7: file content after the first application (its output). -/
def c7Fetch2 : String → ContentResult :=
  fun p => if p = "f.txt" then .file "ab" else .missing

/-- C8: a write edit declaring base64 encoding. -/
def c8Edit : WriteEdit := ⟨"src/a.txt", "overwrite", "aGk=", "base64"⟩

/-- C9: PR world where the listing finds open PR #7 but the in-place
title/body update throws; the remote then (correctly) refuses the
duplicate creation the catch attempts. -/
def c9PR : PRWorld :=
  { listFails := false, existing := some (7, "prurl7"), updateFails := true,
    createFirst := some (9, "prurl9"), labelsFail := false,
    reviewersFail := false, createFallback := none }

/-- C9: world reaching the PR block with one committed write edit. -/
def c9World : World :=
  { branchRef := .err 404, baseRef := .ok "base0", createRef := none,
    commit := okCommit (fun _ => .missing), pr := c9PR }

/-- C10: replacement string made of JS substitution patterns. -/
def c10Edit : ReplaceEdit := ⟨"src/m.txt", "a", "$&$&", false⟩

/-- C10: the target file. -/
def c10Fetch : String → ContentResult :=
  fun p => if p = "src/m.txt" then .file "a" else .missing

/-! ## Helper lemmas -/

/-- If the search string does not occur, JS replace is the identity. -/
theorem jsReplaceFirst_of_not_occurs (s pat r : String)
    (h : occursIn s pat = false) : jsReplaceFirst s pat r = s := by
  unfold occursIn at h
  unfold jsReplaceFirst
  cases hf : findSub s.data pat.data with
  | none => rfl
  | some i => rw [hf] at h; simp at h

/-- A replacement without `$` passes through `GetSubstitution`
unchanged. -/
theorem substAux_no_dollar (m b a : List Char) :
    ∀ l : List Char, '$' ∉ l → substAux m b a l = l := by
  intro l
  induction l with
  | nil => intro _; rfl
  | cons c rest ih =>
    intro h
    have hc : c ≠ '$' := fun hc => h (hc ▸ List.mem_cons_self c rest)
    have hrest : '$' ∉ rest := fun hr => h (List.mem_cons_of_mem c hr)
    unfold substAux
    simp [hc, ih hrest]

/-- Every `getContent` call recorded by the edit loop is a read. -/
theorem fetchCalls_no_creation (edits : List Edit) :
    ∀ c ∈ fetchCalls edits, c.isCommitCreation = false := by
  intro c hc
  unfold fetchCalls at hc
  rw [List.mem_filterMap] at hc
  obtain ⟨e, _, he⟩ := hc
  cases e with
  | write w => simp at he
  | replace r => simp at he; rw [← he]; rfl

/-- The path gate on a batch of allowed, nonempty paths that contains a
workflow path and lacks the approval header answers
`workflow_edit_blocked`. -/
theorem validate_blocks_workflow (edits : List Edit)
    (hwf : ∃ e ∈ edits, isWorkflowPath e.path = true)
    (hok : ∀ e ∈ edits, e.path ≠ "" ∧ isPathAllowed e.path = true) :
    ∃ p, validatePathsOrDie false edits = .workflowBlocked p ∧
      isWorkflowPath p = true := by
  induction edits with
  | nil => obtain ⟨e, he, _⟩ := hwf; exact absurd he (List.not_mem_nil e)
  | cons e rest ih =>
    obtain ⟨hne, hall⟩ := hok e (List.mem_cons_self e rest)
    by_cases hw : isWorkflowPath e.path = true
    · refine ⟨e.path, ?_, hw⟩
      unfold validatePathsOrDie
      simp [hne, hall, hw]
    · have hwf' : ∃ x ∈ rest, isWorkflowPath x.path = true := by
        obtain ⟨x, hx, hxw⟩ := hwf
        rcases List.mem_cons.mp hx with h | h
        · exact absurd (h ▸ hxw) hw
        · exact ⟨x, h, hxw⟩
      obtain ⟨p, hp, hpw⟩ :=
        ih hwf' (fun x hx => hok x (List.mem_cons_of_mem e hx))
      refine ⟨p, ?_, hpw⟩
      unfold validatePathsOrDie
      simp only [Bool.not_eq_true] at hw
      simp [hne, hall, hw, hp]

/-! ## The claims -/

/-- C1 (counterexample).  The claim as stated is false on this code: a
batch whose single edit is a `create`-mode `Write` aimed at a path
whose file already exists does NOT produce `no_change` — `commitBatch`
pushes a tree entry for every write regardless of mode, so the call
succeeds with a 200 response. -/
theorem claim_C1_counterexample :
    c1Edit = .write ⟨"README.md", "create", "new text", "utf8"⟩ ∧
    c1Fetch "README.md" = .file "old text" ∧
    (applyHandler baseEnv (mkReq [c1Edit]) (okWorld c1Fetch)).1
      = .ok "feat" "prurl" "newsha" ∧
    (applyHandler baseEnv (mkReq [c1Edit]) (okWorld c1Fetch)).1 ≠ .noChange := by
  refine ⟨rfl, rfl, ?_, ?_⟩ <;> decide

/-- C1 (amended).  For every batch consisting only of `Replace` edits
each of whose search string is absent from the file content fetched for
its path (or whose path does not resolve to a file), `commitBatch`
produces zero tree entries and fails with `no_change`.  (`Write` edits
had to be dropped from the premise: `commitBatch` emits a tree entry
for every write, whatever its mode.) -/
theorem claim_C1 (w : CommitWorld) (branch parentSha t : String)
    (edits : List Edit)
    (ht : w.getCommitTree = some t)
    (hrep : ∀ e ∈ edits, ∃ r, e = .replace r)
    (habs : ∀ r, Edit.replace r ∈ edits → ∀ c,
      w.fetch r.path = .file c → occursIn c r.search = false) :
    (commitBatch w branch parentSha edits).1 = .error .noChange := by
  have hempty : treeEntriesOf w.fetch edits = [] := by
    unfold treeEntriesOf
    rw [List.filterMap_eq_nil_iff]
    intro e he
    obtain ⟨r, rfl⟩ := hrep e he
    cases hf : w.fetch r.path with
    | file c =>
      have habs' := habs r he c hf
      simp [entryOfEdit, hf,
        jsReplaceFirst_of_not_occurs c r.search r.replace habs']
    | missing => simp [entryOfEdit, hf]
    | notFile => simp [entryOfEdit, hf]
  unfold commitBatch
  rw [ht]
  simp [hempty]

/-- C1 (witness): concrete instance of the amended claim, a single
replace whose search string `"zz"` is absent from `"abc"`. -/
theorem claim_C1_witness :
    ((okCommit (fun p => if p = "README.md" then .file "abc" else .missing)).getCommitTree
        = some "tree0") ∧
    (∀ e ∈ [Edit.replace ⟨"README.md", "zz", "q", false⟩], ∃ r, e = .replace r) ∧
    (∀ r, Edit.replace r ∈ [Edit.replace ⟨"README.md", "zz", "q", false⟩] → ∀ c,
      (okCommit (fun p => if p = "README.md" then .file "abc" else .missing)).fetch r.path
        = .file c → occursIn c r.search = false) ∧
    (commitBatch (okCommit (fun p => if p = "README.md" then .file "abc" else .missing))
      "feat" "base0" [Edit.replace ⟨"README.md", "zz", "q", false⟩]).1
      = .error .noChange := by
  have hrep : ∀ e ∈ [Edit.replace ⟨"README.md", "zz", "q", false⟩],
      ∃ r, e = Edit.replace r := by
    intro e he
    rw [List.mem_singleton] at he
    exact ⟨_, he⟩
  have habs : ∀ r, Edit.replace r ∈ [Edit.replace ⟨"README.md", "zz", "q", false⟩] →
      ∀ c, (okCommit (fun p => if p = "README.md" then .file "abc" else .missing)).fetch
        r.path = .file c → occursIn c r.search = false := by
    intro r hr c hc
    rw [List.mem_singleton] at hr
    rw [Edit.replace.injEq] at hr
    subst hr
    simp [okCommit] at hc
    subst hc
    decide
  exact ⟨rfl, hrep, habs,
    claim_C1 _ "feat" "base0" "tree0" _ rfl hrep habs⟩

/-- C2 (counterexample).  `commitBatch`'s replace branch runs
`current.replace(search, replace)` with no reference to any `all` /
`matchAll` flag: with `all = true` on a file containing `"foo foo"`
the result is `"bar foo"`, not the `"bar bar"` the claim requires. -/
theorem claim_C2_counterexample :
    c2Edit.all = true ∧
    c2Fetch "README.md" = .file "foo foo" ∧
    treeEntriesOf c2Fetch [.replace c2Edit] = [⟨"README.md", "bar foo"⟩] ∧
    ("bar foo" : String) ≠ "bar bar" := by
  refine ⟨rfl, rfl, by decide, by decide⟩

/-- C2 (amended).  For every `Replace` edit whose path resolves to a
file, `commitBatch` replaces only the FIRST occurrence of the search
string, and the `all`/`matchAll` flag has no effect: the produced tree
entry is identical for both flag values and equals the
first-occurrence substitution of the fetched content. -/
theorem claim_C2 (fetch : String → ContentResult)
    (path search repl : String) (a b : Bool) (c : String)
    (hc : fetch path = .file c) :
    entryOfEdit fetch (.replace ⟨path, search, repl, a⟩)
      = entryOfEdit fetch (.replace ⟨path, search, repl, b⟩) ∧
    entryOfEdit fetch (.replace ⟨path, search, repl, a⟩)
      = (if jsReplaceFirst c search repl = c then none
         else some ⟨path, jsReplaceFirst c search repl⟩) := by
  constructor
  · simp [entryOfEdit, hc]
  · simp [entryOfEdit, hc]

/-- C2 (witness): Scenario D's input, both flag values, yields the
single-substitution entry `"bar foo"`. -/
theorem claim_C2_witness :
    c2Fetch "README.md" = .file "foo foo" ∧
    entryOfEdit c2Fetch (.replace ⟨"README.md", "foo", "bar", true⟩)
      = entryOfEdit c2Fetch (.replace ⟨"README.md", "foo", "bar", false⟩) ∧
    entryOfEdit c2Fetch (.replace ⟨"README.md", "foo", "bar", true⟩)
      = (if jsReplaceFirst "foo foo" "foo" "bar" = "foo foo" then none
         else some ⟨"README.md", jsReplaceFirst "foo foo" "foo" "bar"⟩) := by
  refine ⟨rfl, ?_, ?_⟩
  · exact (claim_C2 c2Fetch "README.md" "foo" "bar" true false "foo foo" rfl).1
  · exact (claim_C2 c2Fetch "README.md" "foo" "bar" true false "foo foo" rfl).2

/-- C3.  The `catch` around the branch-ref lookup in
`ensureBranchAndGetHeadSha` is unconditional: a lookup failure with
HTTP status 500 — an error other than not-found (404) — is swallowed,
and the function proceeds to read the base branch and create the ref
instead of propagating the error, contradicting the claim. -/
theorem claim_C3 :
    c3World.branchRef = .err 500 ∧ (500 : Nat) ≠ 404 ∧
    ensureBranchAndGetHeadSha c3World "feat" "main"
      = (.ok "base0", [.getRef "feat", .getRef "main", .createRef "feat"]) := by
  refine ⟨rfl, by decide, rfl⟩

/-- C4 (counterexample).  The gate walks the edits in order, so a batch
whose workflow edit is preceded by an edit with a disallowed path is
answered 400 `path_not_allowed`, not 403 `workflow_edit_blocked`, even
though the batch contains a workflow path and the approval header is
absent. -/
theorem claim_C4_counterexample :
    (mkReq c4Edits).approveHdr = none ∧
    isWorkflowPath ".github/workflows/ci.yml" = true ∧
    (Edit.write ⟨".github/workflows/ci.yml", "overwrite", "y", "utf8"⟩) ∈ c4Edits ∧
    (applyHandler baseEnv (mkReq c4Edits) (okWorld (fun _ => .missing))).1
      = .pathNotAllowed "secrets.txt" ∧
    (applyHandler baseEnv (mkReq c4Edits) (okWorld (fun _ => .missing))).1
      ≠ .workflowBlocked ".github/workflows/ci.yml" := by
  refine ⟨rfl, by decide, by decide, by decide, by decide⟩

/-- C4 (amended).  For every authenticated, well-formed `/apply`
request whose edits include a workflow path, whose
`X-Butler-Approve-Workflows` header is absent or differs from the
server key, and all of whose edit paths are nonempty and in the allow
set, the response is 403 with discriminant `workflow_edit_blocked` (a
distinct `Resp` constructor from `path_not_allowed`), and no remote
call at all — in particular no mutation — is issued. -/
theorem claim_C4 (env : Env) (r : Request) (w : World)
    (branch title : String)
    (htok : requireToken r.token env.butlerToken = true)
    (ho : r.owner ≠ "") (hrp : r.repo ≠ "")
    (hbr : r.branch = some branch) (hbne : branch ≠ "")
    (hpt : r.prTitle = some title) (htne : title ≠ "")
    (happ : approveOk r.approveHdr env.workflowEditKey = false)
    (hwf : ∃ e ∈ r.edits, isWorkflowPath e.path = true)
    (hok : ∀ e ∈ r.edits, e.path ≠ "" ∧ isPathAllowed e.path = true) :
    ∃ p, isWorkflowPath p = true ∧
      applyHandler env r w = (.workflowBlocked p, []) ∧
      Resp.statusCode (.workflowBlocked p) = 403 := by
  obtain ⟨p, hp, hpw⟩ := validate_blocks_workflow r.edits hwf hok
  refine ⟨p, hpw, ?_, rfl⟩
  have hne : r.edits ≠ [] := by
    obtain ⟨e, he, _⟩ := hwf
    exact List.ne_nil_of_mem he
  unfold applyHandler
  rw [htok, hbr, hpt, happ, hp]
  simp [ho, hrp, hbne, htne, hne]

/-- C4 (witness): Scenario C — a single workflow write without the
approval header is rejected 403 with no remote call. -/
theorem claim_C4_witness :
    (requireToken (mkReq [.write ⟨".github/workflows/ci.yml", "overwrite", "y", "utf8"⟩]).token
        baseEnv.butlerToken = true) ∧
    (approveOk (mkReq [.write ⟨".github/workflows/ci.yml", "overwrite", "y", "utf8"⟩]).approveHdr
        baseEnv.workflowEditKey = false) ∧
    (∃ p, isWorkflowPath p = true ∧
      applyHandler baseEnv
        (mkReq [.write ⟨".github/workflows/ci.yml", "overwrite", "y", "utf8"⟩])
        (okWorld (fun _ => .missing))
      = (.workflowBlocked p, []) ∧
      Resp.statusCode (.workflowBlocked p) = 403) := by
  refine ⟨by decide, by decide, ?_⟩
  exact claim_C4 baseEnv _ _ "feat" "T" (by decide) (by decide) (by decide)
    rfl (by decide) rfl (by decide) (by decide)
    ⟨.write ⟨".github/workflows/ci.yml", "overwrite", "y", "utf8"⟩,
      List.mem_singleton.mpr rfl, by decide⟩
    (by intro e he; simp [mkReq] at he; subst he; exact ⟨by decide, by decide⟩)

/-- C5.  Under the create-new strategy the `catch` around `createRef`
is unconditional: a creation failure with HTTP status 403 (permissions
— not the already-exists cause, whose status is 422) is still answered
422 `branch_exists`, contradicting the claim's "exactly when" and
"failures with any other cause are not reported as branch_exists". -/
theorem claim_C5 :
    c5World.createRef = some 403 ∧ (403 : Nat) ≠ 422 ∧
    (mkReq [.write ⟨"src/x.txt", "overwrite", "x", "utf8"⟩]).strategyReuse = false ∧
    applyHandler baseEnv (mkReq [.write ⟨"src/x.txt", "overwrite", "x", "utf8"⟩]) c5World
      = (.branchExists "feat", [.getRef "main", .createRef "feat"]) ∧
    Resp.statusCode (.branchExists "feat") = 422 := by
  refine ⟨rfl, by decide, rfl, by decide, rfl⟩

/-- C6.  When the edit loop produces zero tree entries, `commitBatch`
throws the tagged `no_change` error with a trace consisting of the
parent-commit read and the per-replace content reads only — no
tree-creation, commit-creation or ref-update call — and `/apply`
translates the error into the 400 `no_change` response. -/
theorem claim_C6 (env : Env) (r : Request) (w : World)
    (branch title t baseSha : String)
    (htok : requireToken r.token env.butlerToken = true)
    (ho : r.owner ≠ "") (hrp : r.repo ≠ "")
    (hbr : r.branch = some branch) (hbne : branch ≠ "")
    (hpt : r.prTitle = some title) (htne : title ≠ "")
    (hne : r.edits ≠ [])
    (hgate : validatePathsOrDie (approveOk r.approveHdr env.workflowEditKey) r.edits = .ok)
    (hstrat : r.strategyReuse = false)
    (hbase : w.baseRef = .ok baseSha) (hcr : w.createRef = none)
    (ht : w.commit.getCommitTree = some t)
    (hempty : treeEntriesOf w.commit.fetch r.edits = []) :
    commitBatch w.commit branch baseSha r.edits
      = (.error .noChange, Call.getCommit baseSha :: fetchCalls r.edits) ∧
    (∀ c ∈ (commitBatch w.commit branch baseSha r.edits).2,
      c.isCommitCreation = false) ∧
    (applyHandler env r w).1 = .noChange ∧
    Resp.statusCode .noChange = 400 := by
  have hcb : commitBatch w.commit branch baseSha r.edits
      = (.error .noChange, Call.getCommit baseSha :: fetchCalls r.edits) := by
    unfold commitBatch
    rw [ht]
    simp [hempty]
  refine ⟨hcb, ?_, ?_, rfl⟩
  · intro c hc
    rw [hcb] at hc
    rcases List.mem_cons.mp hc with h | h
    · rw [h]; rfl
    · exact fetchCalls_no_creation r.edits c h
  · unfold applyHandler resolveHead
    rw [htok, hbr, hpt, hgate, hstrat, hbase, hcr]
    simp [ho, hrp, hbne, htne, hne, hcb]

/-- C6 (witness): a single replace whose search string is absent
produces the `no_change` trace and the 400 response. -/
theorem claim_C6_witness :
    (treeEntriesOf (okWorld (fun p => if p = "README.md" then .file "abc" else .missing)).commit.fetch
        (mkReq [.replace ⟨"README.md", "zz", "q", false⟩]).edits = []) ∧
    (commitBatch (okWorld (fun p => if p = "README.md" then .file "abc" else .missing)).commit
        "feat" "base0" (mkReq [.replace ⟨"README.md", "zz", "q", false⟩]).edits
      = (.error .noChange, [.getCommit "base0", .getContent "README.md"])) ∧
    (applyHandler baseEnv (mkReq [.replace ⟨"README.md", "zz", "q", false⟩])
        (okWorld (fun p => if p = "README.md" then .file "abc" else .missing))).1
      = .noChange := by
  have h := claim_C6 baseEnv (mkReq [.replace ⟨"README.md", "zz", "q", false⟩])
    (okWorld (fun p => if p = "README.md" then .file "abc" else .missing))
    "feat" "T" "tree0" "base0"
    (by decide) (by decide) (by decide) rfl (by decide) rfl (by decide)
    (by decide) (by decide) rfl rfl rfl rfl (by decide)
  exact ⟨by decide, by simpa [fetchCalls] using h.1, h.2.2.1⟩

/-- C7 (counterexample).  A `Replace` whose replacement reintroduces
its search string is not idempotent: on a file `"a"`, replacing `"a"`
by `"ab"` first yields `"ab"`, and the second application — reading the
`"ab"` the first produced — changes it again (to `"abb"`), so the
second single-edit batch commits instead of failing `no_change`. -/
theorem claim_C7_counterexample :
    treeEntriesOf c7Fetch1 [.replace c7Edit] = [⟨"f.txt", "ab"⟩] ∧
    c7Fetch2 "f.txt" = .file "ab" ∧
    treeEntriesOf c7Fetch2 [.replace c7Edit] = [⟨"f.txt", "abb"⟩] ∧
    (commitBatch (okCommit c7Fetch2) "feat" "sha1" [.replace c7Edit]).1
      = .ok "newsha" ∧
    (commitBatch (okCommit c7Fetch2) "feat" "sha1" [.replace c7Edit]).1
      ≠ .error .noChange := by
  have h1 : (commitBatch (okCommit c7Fetch2) "feat" "sha1" [.replace c7Edit]).1
      = .ok "newsha" := rfl
  refine ⟨by decide, rfl, by decide, h1, ?_⟩
  rw [h1]
  intro h
  exact Except.noConfusion h

/-- C7 (amended).  Applying the same single-edit `Replace` batch twice
in immediate succession yields `no_change` on the second application
PROVIDED the search string no longer occurs in the content the first
application produced (the first application having changed the file;
its remote creation calls succeeding). -/
theorem claim_C7 (w₁ w₂ : CommitWorld) (r : ReplaceEdit)
    (b₁ p₁ b₂ p₂ c t₁ t₂ : String)
    (h1 : w₁.fetch r.path = .file c) (ht1 : w₁.getCommitTree = some t₁)
    (hchange : jsReplaceFirst c r.search r.replace ≠ c)
    (hct : w₁.createTreeFails = false) (hcc : w₁.createCommitFails = false)
    (hur : w₁.updateRefFails = false)
    (h2 : w₂.fetch r.path = .file (jsReplaceFirst c r.search r.replace))
    (ht2 : w₂.getCommitTree = some t₂)
    (habs : occursIn (jsReplaceFirst c r.search r.replace) r.search = false) :
    (commitBatch w₁ b₁ p₁ [.replace r]).1 = .ok w₁.newCommitSha ∧
    (commitBatch w₂ b₂ p₂ [.replace r]).1 = .error .noChange := by
  constructor
  · unfold commitBatch
    rw [ht1]
    have hentry : treeEntriesOf w₁.fetch [.replace r]
        = [⟨r.path, jsReplaceFirst c r.search r.replace⟩] := by
      simp [treeEntriesOf, entryOfEdit, h1, hchange]
    simp [hentry, hct, hcc, hur]
  · unfold commitBatch
    rw [ht2]
    have hid : jsReplaceFirst (jsReplaceFirst c r.search r.replace) r.search r.replace
        = jsReplaceFirst c r.search r.replace :=
      jsReplaceFirst_of_not_occurs _ _ _ habs
    have hentry : treeEntriesOf w₂.fetch [.replace r] = [] := by
      simp [treeEntriesOf, entryOfEdit, h2, hid]
    simp [hentry]

/-- C7 (witness): replacing `"foo"` by `"bar"` in a file `"foo"`
commits once, then the rerun on the produced `"bar"` is `no_change`. -/
theorem claim_C7_witness :
    ((okCommit (fun p => if p = "g.txt" then .file "foo" else .missing)).fetch "g.txt"
        = .file "foo") ∧
    jsReplaceFirst "foo" "foo" "bar" = "bar" ∧
    occursIn "bar" "foo" = false ∧
    (commitBatch (okCommit (fun p => if p = "g.txt" then .file "foo" else .missing))
        "feat" "base0" [.replace ⟨"g.txt", "foo", "bar", false⟩]).1 = .ok "newsha" ∧
    (commitBatch (okCommit (fun p => if p = "g.txt" then .file "bar" else .missing))
        "feat" "sha1" [.replace ⟨"g.txt", "foo", "bar", false⟩]).1
      = .error .noChange := by
  have h := claim_C7
    (okCommit (fun p => if p = "g.txt" then .file "foo" else .missing))
    (okCommit (fun p => if p = "g.txt" then .file "bar" else .missing))
    ⟨"g.txt", "foo", "bar", false⟩ "feat" "base0" "feat" "sha1" "foo" "tree0" "tree0"
    (by decide) rfl (by decide) rfl rfl rfl (by decide) rfl (by decide)
  exact ⟨rfl, by decide, by decide, h.1, h.2⟩

/-- C8 (counterexample).  `commitBatch`'s write branch pushes
`e.content` as the tree entry verbatim — its edit type does not even
carry an encoding field: a write declaring `base64` with content
`"aGk="` stores the literal `"aGk="`, not the decoded `"hi"` the claim
requires. -/
theorem claim_C8_counterexample :
    c8Edit.encoding = "base64" ∧
    treeEntriesOf (fun _ => .missing) [.write c8Edit] = [⟨"src/a.txt", "aGk="⟩] ∧
    base64Decode "aGk=" = "hi" ∧
    ("aGk=" : String) ≠ "hi" := by
  refine ⟨rfl, by decide, by decide, by decide⟩

/-- C8 (amended).  For every `Write` edit processed by `commitBatch`,
the content is used verbatim — the declared encoding is never
consulted: the tree entry carries `content` as-is, and the whole
`commitBatch` run is identical for any two declared encodings. -/
theorem claim_C8 (w : CommitWorld) (branch parentSha : String)
    (path mode content enc₁ enc₂ : String) :
    treeEntriesOf w.fetch [.write ⟨path, mode, content, enc₁⟩]
      = [⟨path, content⟩] ∧
    commitBatch w branch parentSha [.write ⟨path, mode, content, enc₁⟩]
      = commitBatch w branch parentSha [.write ⟨path, mode, content, enc₂⟩] := by
  constructor
  · simp [treeEntriesOf, entryOfEdit]
  · unfold commitBatch
    simp [treeEntriesOf, entryOfEdit, fetchCalls]

/-- C9.  The `try` block of the PR step spans the in-place update of a
found PR and the post-creation label/reviewer cosmetics, and its
`catch` unconditionally calls `pulls.create`: when an open PR (#7) is
found but `pulls.update` fails, the handler attempts to create a
duplicate PR for the same head/base, and when the remote (correctly)
rejects that, the whole `/apply` fails 500 `apply_failed` —
contradicting both "does not fail the overall operation" and "only a
failure of the listing call falls back to creation". -/
theorem claim_C9 :
    c9PR.existing = some (7, "prurl7") ∧
    c9PR.listFails = false ∧ c9PR.updateFails = true ∧
    prStep c9PR [] [] = (.error (), [.prList, .prUpdate 7, .prCreate]) ∧
    applyHandler baseEnv (mkReq [.write ⟨"src/x.txt", "overwrite", "x", "utf8"⟩]) c9World
      = (.applyFailed,
         [.getRef "main", .createRef "feat", .getCommit "base0",
          .createTree, .createCommit, .updateRef "feat",
          .prList, .prUpdate 7, .prCreate]) ∧
    Resp.statusCode .applyFailed = 500 := by
  refine ⟨rfl, rfl, rfl, rfl, by decide, rfl⟩

/-- C10 (counterexample).  The replacement string is passed to JS
`String.prototype.replace`, which interprets `$` substitution
patterns: replacing `"a"` by `"$&$&"` in the file `"a"` stores `"aa"`
(the match doubled), not the literal `"$&$&"` the claim's "inserted
verbatim, for every possible replacement string" requires. -/
theorem claim_C10_counterexample :
    c10Fetch "src/m.txt" = .file "a" ∧
    treeEntriesOf c10Fetch [.replace c10Edit] = [⟨"src/m.txt", "aa"⟩] ∧
    ("aa" : String) ≠ "$&$&" := by
  refine ⟨rfl, by decide, by decide⟩

/-- C10 (amended).  For every `Replace` edit whose search string
occurs in the fetched content, the resulting file content is the
original with the first matched occurrence replaced by the replacement
string inserted verbatim PROVIDED the replacement contains no `$`
character (JS `replace` interprets `$$`, `$&` and the other
substitution patterns otherwise). -/
theorem claim_C10 (fetch : String → ContentResult) (al : Bool)
    (path s search repl : String) (i : Nat)
    (hc : fetch path = .file s)
    (hfind : findSub s.data search.data = some i)
    (hnd : '$' ∉ repl.data)
    (hne : String.mk (s.data.take i ++ repl.data ++ s.data.drop (i + search.data.length)) ≠ s) :
    jsReplaceFirst s search repl
      = String.mk (s.data.take i ++ repl.data ++ s.data.drop (i + search.data.length)) ∧
    entryOfEdit fetch (.replace ⟨path, search, repl, al⟩)
      = some ⟨path, String.mk (s.data.take i ++ repl.data ++ s.data.drop (i + search.data.length))⟩ := by
  have hsub := substAux_no_dollar search.data (s.data.take i)
    (s.data.drop (i + search.data.length)) repl.data hnd
  have hj : jsReplaceFirst s search repl
      = String.mk (s.data.take i ++ repl.data ++ s.data.drop (i + search.data.length)) := by
    unfold jsReplaceFirst
    rw [hfind]
    simp only [hsub]
  refine ⟨hj, ?_⟩
  simp only [entryOfEdit, hc, hj]
  rw [if_neg hne]

/-- C10 (witness): Scenario D's `$`-free replacement is spliced in
verbatim at the first occurrence. -/
theorem claim_C10_witness :
    c2Fetch "README.md" = .file "foo foo" ∧
    findSub "foo foo".data "foo".data = some 0 ∧
    ('$' ∉ "bar".data) ∧
    jsReplaceFirst "foo foo" "foo" "bar"
      = String.mk ("foo foo".data.take 0 ++ "bar".data
          ++ "foo foo".data.drop (0 + "foo".data.length)) ∧
    entryOfEdit c2Fetch (.replace ⟨"README.md", "foo", "bar", true⟩)
      = some ⟨"README.md", String.mk ("foo foo".data.take 0 ++ "bar".data
          ++ "foo foo".data.drop (0 + "foo".data.length))⟩ := by
  have h := claim_C10 c2Fetch true "README.md" "foo foo" "foo" "bar" 0
    rfl (by decide) (by decide) (by decide)
  exact ⟨rfl, by decide, by decide, h.1, h.2⟩

end Butler





